import Mathlib

/-! wallet-keeper: the Ethereum keeper client (`keeper/eth/client.go`)

A shallow embedding of the account/address directory of the Ethereum client:
the in-memory `accountAddressMap`, its binding file, the keystore that mints
addresses, and the methods of `Client` that read or change them.

Conventions of the embedding
* A Go `error` is `Option String`: `none` is `nil`, `some msg` is an error whose
  `Error()` text is `msg`.
* A Go function returning `(T, error)` returns `T × error`; a method with a
  pointer receiver additionally returns the receiver (and the file system when it
  touches files) after the call, so that "left unchanged" is a statement.
* `map[string]string` is `GoMap`: the nil map, or a made map holding an
  association list with unique-key update. Reading the nil map finds nothing;
  writing to it panics.
* A call that can panic returns an `Outcome`: the values it returned, or the
  panic it raised.
* A file holds bytes; a Go `string` is a Lean `String`, so the strings of the
  model are the valid UTF-8 ones.
* Libraries the source imports (`os`, `encoding/json`, `keystore`, `rpc`) are
  modelled by their documented behaviour; the JSON codec, the keystore and the
  RPC dialer are parameters, not fixed functions, and `json.std` is the codec
  used where a concrete one is needed.
-/

set_option linter.dupNamespace false

/-- A Go `error` value: `none` is `nil`, `some msg` carries the error text. -/
abbrev error := Option String

deriving instance DecidableEq for Except

/-- The Go built-in `len` on a string: its length in bytes. -/
def len (s : String) : Nat := s.utf8ByteSize

/-- How a call ends: it returns its values, or it panics. -/
inductive Outcome (α : Type) where
  | returned (values : α)
  | panicked (msg : String)
  deriving DecidableEq, Repr

/-- The entries of a made map, as an association list read front to back. -/
abbrev Bindings := List (String × String)

namespace Bindings

/-- The value the entries give a key, if any. -/
def get? : Bindings → String → Option String
  | [], _ => none
  | (k, v) :: rest, key => if k = key then some v else get? rest key

/-- Replace the entry of a key, or add one. -/
def set : Bindings → String → String → Bindings
  | [], key, val => [(key, val)]
  | (k, v) :: rest, key, val =>
    if k = key then (key, val) :: rest else (k, v) :: set rest key val

end Bindings

/-- A Go `map[string]string`: the nil map, or a map made by `make` (or by the
JSON decoder) with its entries. -/
inductive GoMap where
  | nil
  | made (entries : Bindings)
  deriving DecidableEq, Repr

namespace GoMap

/-- Go `make(map[string]string)`. -/
def make : GoMap := .made []

/-- The two-result map read `v, ok := m[k]`: `some v` when `ok`, else `none`.
Reading the nil map is allowed and finds nothing. -/
def get? : GoMap → String → Option String
  | .nil, _ => none
  | .made entries, key => entries.get? key

/-- The map write `m[k] = v`: the map afterwards, or `none` when the write
panics, which it does on the nil map ("assignment to entry in nil map"). -/
def set : GoMap → String → String → Option GoMap
  | .nil, _, _ => none
  | .made entries, key, val => some (.made (entries.set key val))

end GoMap

namespace keeper

/-- Modelled from the spec: the declaration of `keeper.Account` is not in the
sources at hand; the spec's AccountRecord is "name, balance, address list", and
the composite literal at lines 156-161 names the three fields. The zero value
`keeper.Account{}` is `⟨"", 0, []⟩`. -/
structure Account where
  Account : String
  Balance : Int
  Addresses : List String
  deriving DecidableEq, Repr

/-- The zero value `keeper.Account{}`. -/
def Account.zero : keeper.Account := ⟨"", 0, []⟩

end keeper

namespace btcjson

/-- An entry of `listunspent`; the client never builds one, only the empty list. -/
structure ListUnspentResult where
  TxID : String
  Vout : Nat
  Address : String
  Account : String
  deriving DecidableEq, Repr

end btcjson

namespace common

/-- An Ethereum address, kept as the text `Hex()` renders it. -/
structure Address where
  Hex : String
  deriving DecidableEq, Repr

end common

namespace keystore

/-- The account `KeyStore.NewAccount` returns; only `Address` is used. -/
structure Account where
  Address : common.Address
  deriving DecidableEq, Repr

/-- The keystore as the client sees it: `outcome pass n` is what the `n`-th call
of `NewAccount(pass)` returns, and `calls` counts the calls made so far. Every
behaviour of the key provider is some `outcome`. -/
structure KeyStore where
  outcome : String → Nat → Except String keystore.Account
  calls : Nat

/-- The call `store.NewAccount(passphrase)`: the scripted outcome, and the
keystore with one more call made. -/
def KeyStore.NewAccount (ks : KeyStore) (passphrase : String) :
    Except String keystore.Account × KeyStore :=
  (ks.outcome passphrase ks.calls, { ks with calls := ks.calls + 1 })

end keystore

namespace utf8

/-- The rune `utf8.RuneError`, U+FFFD. -/
def RuneError : Char := Char.ofNat 65533

/-- Go `utf8.EncodeRune`: the one to four bytes of a character. -/
def EncodeRune (c : Char) : List UInt8 :=
  if c.toNat < 128 then [UInt8.ofNat c.toNat]
  else if c.toNat < 2048 then
    [UInt8.ofNat (192 + c.toNat / 64), UInt8.ofNat (128 + c.toNat % 64)]
  else if c.toNat < 65536 then
    [UInt8.ofNat (224 + c.toNat / 4096), UInt8.ofNat (128 + c.toNat / 64 % 64),
      UInt8.ofNat (128 + c.toNat % 64)]
  else
    [UInt8.ofNat (240 + c.toNat / 262144), UInt8.ofNat (128 + c.toNat / 4096 % 64),
      UInt8.ofNat (128 + c.toNat / 64 % 64), UInt8.ofNat (128 + c.toNat % 64)]

/-- The bytes of a string, which is what `[]byte(s)` is for a valid UTF-8 `s`. -/
def Encode (s : String) : List UInt8 := s.data.flatMap EncodeRune

/-- Whether a byte lies in a closed range. -/
def inRange (b : UInt8) (lo hi : Nat) : Bool := lo ≤ b.toNat ∧ b.toNat ≤ hi

/-- Go `utf8.DecodeRune`: the first rune of the bytes and its width. Bytes that
do not start a well-formed encoding (overlong forms, surrogates and values
above U+10FFFF included) give `RuneError` with width 1; no bytes give width 0. -/
def DecodeRune : List UInt8 → Char × Nat
  | [] => (RuneError, 0)
  | b0 :: rest =>
    if b0.toNat < 128 then (Char.ofNat b0.toNat, 1)
    else if inRange b0 194 223 then
      match rest with
      | b1 :: _ =>
        if inRange b1 128 191 then
          (Char.ofNat ((b0.toNat - 192) * 64 + (b1.toNat - 128)), 2)
        else (RuneError, 1)
      | [] => (RuneError, 1)
    else if inRange b0 224 239 then
      match rest with
      | b1 :: b2 :: _ =>
        if inRange b1 (if b0.toNat = 224 then 160 else 128)
              (if b0.toNat = 237 then 159 else 191) ∧ inRange b2 128 191 then
          (Char.ofNat ((b0.toNat - 224) * 4096 + (b1.toNat - 128) * 64 + (b2.toNat - 128)), 3)
        else (RuneError, 1)
      | _ => (RuneError, 1)
    else if inRange b0 240 244 then
      match rest with
      | b1 :: b2 :: b3 :: _ =>
        if inRange b1 (if b0.toNat = 240 then 144 else 128)
              (if b0.toNat = 244 then 143 else 191) ∧
            inRange b2 128 191 ∧ inRange b3 128 191 then
          (Char.ofNat ((b0.toNat - 240) * 262144 + (b1.toNat - 128) * 4096 +
            (b2.toNat - 128) * 64 + (b3.toNat - 128)), 4)
        else (RuneError, 1)
      | _ => (RuneError, 1)
    else (RuneError, 1)

/-- The runes of a byte sequence, read one `DecodeRune` after another; the first
argument bounds the number of runes and the length of the input is enough. -/
def decodeRunes : Nat → List UInt8 → List Char
  | 0, _ => []
  | _ + 1, [] => []
  | fuel + 1, b :: rest =>
    match DecodeRune (b :: rest) with
    | (r, size) => r :: decodeRunes fuel ((b :: rest).drop size)

/-- The runes of a byte sequence. -/
def Decode (bytes : List UInt8) : List Char := decodeRunes bytes.length bytes

end utf8

namespace os

/-- What a path names. -/
inductive FileKind where
  | regular
  | dir
  | other
  deriving DecidableEq, Repr

/-- A file-system entry: its kind, whether the process may open it for reading,
and its bytes. -/
structure Node where
  kind : FileKind
  readable : Bool
  content : List UInt8
  deriving DecidableEq, Repr

/-- The file system: path to entry. -/
abbrev FileSystem := List (String × Node)

/-- The entry a path names, if any. -/
def FileSystem.find : FileSystem → String → Option Node
  | [], _ => none
  | (p, n) :: rest, name => if p = name then some n else FileSystem.find rest name

/-- Replace the entry of an existing path. -/
def FileSystem.put : FileSystem → String → Node → FileSystem
  | [], _, _ => []
  | (p, n) :: rest, name, node =>
    if p = name then (p, node) :: rest else (p, n) :: FileSystem.put rest name node

/-- The result of `os.Stat`: enough for `Mode().IsRegular()` and `IsDir()`. -/
structure FileInfo where
  kind : FileKind
  deriving DecidableEq, Repr

/-- Go `stat.Mode().IsRegular()`. -/
def FileInfo.IsRegular (fi : FileInfo) : Bool := fi.kind = FileKind.regular

/-- Go `stat.IsDir()`. -/
def FileInfo.IsDir (fi : FileInfo) : Bool := fi.kind = FileKind.dir

/-- Go `os.Stat(name)`: fails when nothing is at the path. -/
def Stat (fs : FileSystem) (name : String) : Except String FileInfo :=
  match fs.find name with
  | none => .error ("stat " ++ name ++ ": no such file or directory")
  | some n => .ok ⟨n.kind⟩

/-- The access mode a descriptor was opened with. -/
inductive Flag where
  | O_RDONLY
  | O_WRONLY
  | O_RDWR
  deriving DecidableEq, Repr

/-- An open `*os.File`: the path it was opened on and its access mode. -/
structure File where
  name : String
  flag : Flag
  deriving DecidableEq, Repr

/-- Go `os.OpenFile(name, flag, _)` without `O_CREATE`/`O_TRUNC`: fails when the
path is missing, when read access is asked and refused, or when a directory is
opened for writing. -/
def OpenFile (fs : FileSystem) (name : String) (flag : Flag) : Except String File :=
  match fs.find name with
  | none => .error ("open " ++ name ++ ": no such file or directory")
  | some n =>
    if flag ≠ Flag.O_WRONLY ∧ n.readable = false then
      .error ("open " ++ name ++ ": permission denied")
    else if flag ≠ Flag.O_RDONLY ∧ n.kind = FileKind.dir then
      .error ("open " ++ name ++ ": is a directory")
    else .ok ⟨name, flag⟩

/-- Go `os.Open(name)`, which is `OpenFile(name, O_RDONLY, 0)`: the descriptor is
opened for reading only. -/
def Open (fs : FileSystem) (name : String) : Except String File :=
  OpenFile fs name Flag.O_RDONLY

/-- Reading an open file to its end (what a `json.Decoder` does with its reader):
fails on a write-only descriptor and on a directory. -/
def File.ReadAll (fs : FileSystem) (f : File) : Except String (List UInt8) :=
  if f.flag = Flag.O_WRONLY then .error ("read " ++ f.name ++ ": bad file descriptor")
  else
    match fs.find f.name with
    | none => .error ("read " ++ f.name ++ ": file already closed")
    | some n =>
      if n.kind = FileKind.dir then .error ("read " ++ f.name ++ ": is a directory")
      else .ok n.content

/-- Go `(*os.File).Write(b)` on a freshly opened descriptor (offset 0): a
descriptor opened `O_RDONLY` refuses the write with EBADF and the file is left as
it was; otherwise the bytes of `b` overwrite the first `len(b)` bytes of the
file. Returns the number of bytes written, or the error, and the file system
afterwards. -/
def File.Write (fs : FileSystem) (f : File) (b : List UInt8) :
    Except String Nat × FileSystem :=
  if f.flag = Flag.O_RDONLY then
    (.error ("write " ++ f.name ++ ": bad file descriptor"), fs)
  else
    match fs.find f.name with
    | none => (.error ("write " ++ f.name ++ ": file already closed"), fs)
    | some n =>
      (.ok b.length, fs.put f.name { n with content := b ++ n.content.drop b.length })

end os

namespace json

/-- The `encoding/json` codec for the document type `map[string]string`:
`Marshal m` is the bytes of `json.Marshal(m)`; `Unmarshal bytes` reads the first
JSON value of `bytes` as such a map and gives its entries in document order,
`none` when the value is `null`, or the decoding error. -/
structure Codec where
  Marshal : GoMap → Except String (List UInt8)
  Unmarshal : List UInt8 → Except String (Option Bindings)

/-- Go `json.NewEncoder(w).Encode(&m)`: marshal, append a newline, write to `w`;
the error of either step is returned. -/
def Encode (codec : Codec) (fs : os.FileSystem) (w : os.File) (m : GoMap) :
    error × os.FileSystem :=
  match codec.Marshal m with
  | .error err => (some err, fs)
  | .ok b =>
    match os.File.Write fs w (b ++ [10]) with
    | (.error err, fs1) => (some err, fs1)
    | (.ok _, fs1) => (none, fs1)

/-- The entries a decoded object is stored into: those of the map, none for the
nil map (the decoder makes a map first). -/
def target : GoMap → Bindings
  | .nil => []
  | .made entries => entries

/-- Go `json.NewDecoder(r).Decode(&m)`: read `r` and decode. A `null` document
sets `m` to the nil map; an object stores each of its entries into `m`, later
entries of a key replacing earlier ones. Returns the error and `m` afterwards;
on an error `m` is returned as it was (the caller drops it). -/
def Decode (codec : Codec) (fs : os.FileSystem) (r : os.File) (m : GoMap) :
    error × GoMap :=
  match os.File.ReadAll fs r with
  | .error err => (some err, m)
  | .ok bytes =>
    match codec.Unmarshal bytes with
    | .error err => (some err, m)
    | .ok none => (none, .nil)
    | .ok (some entries) =>
      (none, .made (entries.foldl (fun acc kv => acc.set kv.1 kv.2) (target m)))

/-! The codec of `encoding/json` itself, on flat string maps. The texts of its
errors stand for Go's, which carry offsets and the offending character. -/

/-- The double quote. -/
def quote : Char := Char.ofNat 34

/-- The backslash. -/
def backslash : Char := Char.ofNat 92

/-- Lower-case hexadecimal digit. -/
def hexDigit (n : Nat) : Char := "0123456789abcdef".data.getD n '0'

/-- The six-character escape of a code unit, backslash-u and four hex digits. -/
def unicodeEscape (n : Nat) : List Char :=
  [backslash, 'u', hexDigit (n / 4096 % 16), hexDigit (n / 256 % 16),
    hexDigit (n / 16 % 16), hexDigit (n % 16)]

/-- How the encoder (with HTML escaping, its default) writes one character of a
string. -/
def escapeChar (c : Char) : List Char :=
  if c = quote then [backslash, quote]
  else if c = backslash then [backslash, backslash]
  else if c.toNat = 8 then [backslash, 'b']
  else if c.toNat = 12 then [backslash, 'f']
  else if c.toNat = 10 then [backslash, 'n']
  else if c.toNat = 13 then [backslash, 'r']
  else if c.toNat = 9 then [backslash, 't']
  else if c.toNat < 32 ∨ c = '<' ∨ c = '>' ∨ c = '&' ∨ c.toNat = 8232 ∨ c.toNat = 8233 then
    unicodeEscape c.toNat
  else [c]

/-- A JSON string literal. -/
def encodeString (s : String) : List Char :=
  quote :: (s.data.flatMap escapeChar ++ [quote])

/-- Insert an entry into a list sorted by key. -/
def insertByKey (kv : String × String) : Bindings → Bindings
  | [] => [kv]
  | e :: rest => if kv.1 < e.1 then kv :: e :: rest else e :: insertByKey kv rest

/-- The entries of a map in the encoder's order: one per key, keys ascending. -/
def sortedEntries (entries : Bindings) : Bindings :=
  (entries.foldr (fun kv acc => Bindings.set acc kv.1 kv.2) []).foldr insertByKey []

/-- The members of an object, comma separated. -/
def encodeMembers : Bindings → List Char
  | [] => []
  | [(k, v)] => encodeString k ++ ':' :: encodeString v
  | (k, v) :: rest => encodeString k ++ ':' :: encodeString v ++ ',' :: encodeMembers rest

/-- Go `json.Marshal` of a `map[string]string`: `null` for the nil map, else the
object with the keys ascending; it never fails. -/
def marshal : GoMap → Except String (List UInt8)
  | .nil => .ok (utf8.Encode "null")
  | .made entries =>
    .ok (utf8.Encode
      (String.mk ((Char.ofNat 123) :: (encodeMembers (sortedEntries entries) ++ [Char.ofNat 125]))))

/-- Drop leading JSON white space. -/
def skipWS : List Char → List Char
  | [] => []
  | c :: cs =>
    if c = ' ' ∨ c.toNat = 9 ∨ c.toNat = 10 ∨ c.toNat = 13 then skipWS cs else c :: cs

/-- Value of a hexadecimal digit. -/
def hexVal (c : Char) : Option Nat :=
  if '0' ≤ c ∧ c ≤ '9' then some (c.toNat - 48)
  else if 'a' ≤ c ∧ c ≤ 'f' then some (c.toNat - 87)
  else if 'A' ≤ c ∧ c ≤ 'F' then some (c.toNat - 55)
  else none

/-- Value of four hexadecimal digits. -/
def hex4 (a b c d : Char) : Option Nat :=
  match hexVal a, hexVal b, hexVal c, hexVal d with
  | some w, some x, some y, some z => some (w * 4096 + x * 256 + y * 16 + z)
  | _, _, _, _ => none

/-- The character of a code unit; a lone surrogate decodes to U+FFFD. -/
def unitChar (n : Nat) : Char :=
  if 55296 ≤ n ∧ n < 57344 then Char.ofNat 65533 else Char.ofNat n

/-- Scan a string literal after its opening quote: the decoded text (collected in
reverse in `acc`) and the input after the closing quote. `none` is a syntax
error. The first argument bounds the number of characters and escapes read;
the length of the input is always enough. -/
def scanString : Nat → List Char → List Char → Option (String × List Char)
  | 0, _, _ => none
  | _ + 1, [], _ => none
  | fuel + 1, c :: cs, acc =>
    if c = quote then some (String.mk acc.reverse, cs)
    else if c = backslash then
      match cs with
      | [] => none
      | e :: rest =>
        if e = quote ∨ e = backslash ∨ e = '/' then scanString fuel rest (e :: acc)
        else if e = 'b' then scanString fuel rest (Char.ofNat 8 :: acc)
        else if e = 'f' then scanString fuel rest (Char.ofNat 12 :: acc)
        else if e = 'n' then scanString fuel rest (Char.ofNat 10 :: acc)
        else if e = 'r' then scanString fuel rest (Char.ofNat 13 :: acc)
        else if e = 't' then scanString fuel rest (Char.ofNat 9 :: acc)
        else if e = 'u' then
          match rest with
          | h1 :: h2 :: h3 :: h4 :: rest1 =>
            match hex4 h1 h2 h3 h4 with
            | none => none
            | some hi =>
              match rest1 with
              | b1 :: u1 :: l1 :: l2 :: l3 :: l4 :: rest2 =>
                match hex4 l1 l2 l3 l4 with
                | some lo =>
                  if b1 = backslash ∧ u1 = 'u' ∧ 55296 ≤ hi ∧ hi < 56320 ∧
                      56320 ≤ lo ∧ lo < 57344 then
                    scanString fuel rest2
                      (Char.ofNat (65536 + (hi - 55296) * 1024 + (lo - 56320)) :: acc)
                  else scanString fuel rest1 (unitChar hi :: acc)
                | none => scanString fuel rest1 (unitChar hi :: acc)
              | _ => scanString fuel rest1 (unitChar hi :: acc)
          | _ => none
        else none
    else if c.toNat < 32 then none
    else scanString fuel cs (c :: acc)

/-- Scan the value of a member: a string literal, or `null` (which stores the
empty string). Any other value does not fit a `string` and is an error. -/
def scanValue : List Char → Option (String × List Char)
  | 'n' :: 'u' :: 'l' :: 'l' :: rest => some ("", rest)
  | c :: rest => if c = quote then scanString rest.length rest [] else none
  | [] => none

/-- Scan the members of an object, the input standing at the first character of
a member; `acc` holds the entries read so far, in reverse. -/
def scanMembers : Nat → List Char → Bindings → Except String Bindings
  | 0, _, _ => .error "unexpected EOF"
  | fuel + 1, cs, acc =>
    match cs with
    | [] => .error "unexpected EOF"
    | c :: rest =>
      if c ≠ quote then .error "invalid character looking for beginning of object key string"
      else
        match scanString rest.length rest [] with
        | none => .error "invalid string literal"
        | some (key, rest1) =>
          match skipWS rest1 with
          | ':' :: rest2 =>
            match scanValue (skipWS rest2) with
            | none => .error "json: cannot unmarshal value into Go value of type string"
            | some (val, rest3) =>
              match skipWS rest3 with
              | ',' :: rest4 => scanMembers fuel (skipWS rest4) ((key, val) :: acc)
              | d :: _ =>
                if d = Char.ofNat 125 then .ok ((key, val) :: acc).reverse
                else .error "invalid character after object key:value pair"
              | [] => .error "unexpected EOF"
          | _ => .error "invalid character after object key"

/-- Read the first JSON value of a text as a `map[string]string`: the entries of
an object in document order, `none` for `null`. -/
def parse (text : List Char) : Except String (Option Bindings) :=
  match skipWS text with
  | [] => .error "EOF"
  | 'n' :: 'u' :: 'l' :: 'l' :: _ => .ok none
  | c :: rest =>
    if c ≠ Char.ofNat 123 then
      .error "json: cannot unmarshal value into Go value of type map[string]string"
    else
      match skipWS rest with
      | [] => .error "unexpected EOF"
      | d :: rest1 =>
        if d = Char.ofNat 125 then .ok (some [])
        else
          match scanMembers text.length (d :: rest1) [] with
          | .error err => .error err
          | .ok entries => .ok (some entries)

/-- Go `json.Unmarshal` of the first JSON value of the bytes into a
`map[string]string`. Bytes that are not UTF-8 read as U+FFFD, as the decoder
reads them inside a string literal; outside one they are a syntax error
either way. -/
def unmarshal (bytes : List UInt8) : Except String (Option Bindings) :=
  parse (utf8.Decode bytes)

/-- The codec of `encoding/json` on flat string maps. -/
def std : Codec := ⟨marshal, unmarshal⟩

end json

namespace rpc

/-- An `*rpc.Client`, known by the endpoint it was dialled on. -/
structure Client where
  host : String
  deriving DecidableEq, Repr

end rpc

namespace log

/-- A logrus `*log.Logger`, known by the file it writes to. -/
structure Logger where
  Out : String
  deriving DecidableEq, Repr

end log

namespace eth

/-- The source constant `PASSWORD`. -/
def PASSWORD : String := "password"

/-- The struct `Client`. The mutex `accountAddressLock` has no content in a
sequential run and is not a field here. -/
structure Client where
  l : log.Logger
  ethRpcClient : rpc.Client
  walletDir : String
  store : keystore.KeyStore
  accountPath : String
  accountAddressMap : GoMap

/-- Method `GetAddress` (lines 128-135). -/
def Client.GetAddress (client : Client) (account : String) : (String × error) × Client :=
  match client.accountAddressMap.get? account with
  | none => (("", some (account ++ " no exists")), client)
  | some address => ((address, none), client)

/-- Method `persistAccountMap` (lines 212-220): `os.Open` the binding file, then
JSON-encode the map onto the descriptor. -/
def Client.persistAccountMap (codec : json.Codec) (client : Client) (fs : os.FileSystem) :
    error × Client × os.FileSystem :=
  match os.Open fs client.accountPath with
  | .error err => (some err, client, fs)
  | .ok file =>
    match json.Encode codec fs file client.accountAddressMap with
    | (err, fs1) => (err, client, fs1)

/-- Method `CreateAccount` (lines 138-163). The map write of line 150 panics on
a nil map; the call then returns nothing, and the client is left with the key
already minted. -/
def Client.CreateAccount (codec : json.Codec) (client : Client) (fs : os.FileSystem)
    (account : String) : Outcome (keeper.Account × error) × Client × os.FileSystem :=
  match client.GetAddress account with
  | ((address, _), client) =>
    if len address > 0 then
      (.returned (keeper.Account.zero, some (account ++ " exists")), client, fs)
    else
      match client.store.NewAccount PASSWORD with
      | (.error err, store) =>
        (.returned (keeper.Account.zero, some err), { client with store := store }, fs)
      | (.ok acc, store) =>
        match client.accountAddressMap.set account acc.Address.Hex with
        | none =>
          (.panicked "assignment to entry in nil map", { client with store := store }, fs)
        | some m =>
          match Client.persistAccountMap codec
              { client with store := store, accountAddressMap := m } fs with
          | (_, client, fs) =>
            (.returned (⟨account, 0, [acc.Address.Hex]⟩, none), client, fs)

/-- Method `GetNewAddress` (lines 173-175). -/
def Client.GetNewAddress (client : Client) (_account : String) : (String × error) × Client :=
  (("", some "not valid operation for ethereum"), client)

/-- Method `GetAddressesByAccount` (lines 178-185). -/
def Client.GetAddressesByAccount (client : Client) (account : String) :
    (List String × error) × Client :=
  match client.accountAddressMap.get? account with
  | none => (([], some (account ++ " not exists")), client)
  | some address => (([address], none), client)

/-- Method `ListUnspentMin` (lines 203-205). -/
def Client.ListUnspentMin (client : Client) (_minConf : Int) :
    (List btcjson.ListUnspentResult × error) × Client :=
  (([], some "ethereum does not support UXTO"), client)

/-- What `NewClient` asks of the world besides the file system: the keystore
`keystore.NewKeyStore` opens on a directory, the outcome of `rpc.Dial`, and the
outcome of opening the log file under a log directory. -/
structure Env where
  NewKeyStore : String → keystore.KeyStore
  Dial : String → Except String rpc.Client
  OpenLogFile : String → Except String String

/-- Function `NewClient` (lines 46-104): the client, or `none` for `nil`, and the
error. The map is made at line 50 and decoded into at line 68. -/
def NewClient (codec : json.Codec) (env : Env) (fs : os.FileSystem)
    (host walletDir accountPath logDir : String) : Option Client × error :=
  match os.Stat fs accountPath with
  | .error err => (none, some err)
  | .ok stat =>
    if !stat.IsRegular then (none, some (accountPath ++ " is not a valid file"))
    else
      match os.Open fs accountPath with
      | .error err => (none, some err)
      | .ok file =>
        match json.Decode codec fs file GoMap.make with
        | (some err, _) => (none, some err)
        | (none, accountAddressMap) =>
          match os.Stat fs walletDir with
          | .error _ => (none, none)
          | .ok stat =>
            if !stat.IsDir then (none, some (walletDir ++ " is not a directory"))
            else
              match env.Dial host with
              | .error err => (none, some err)
              | .ok rpcClient =>
                match env.OpenLogFile logDir with
                | .error err => (none, some err)
                | .ok logFile =>
                  (some
                    { l := ⟨logFile⟩
                      ethRpcClient := rpcClient
                      walletDir := walletDir
                      store := env.NewKeyStore walletDir
                      accountPath := accountPath
                      accountAddressMap := accountAddressMap },
                    none)

/-! ### Concurrent calls of `CreateAccount`

`CreateAccount` takes `accountAddressLock` only around the map write (lines
149-151). A call is therefore four atomic actions on the shared client and file
system, and calls running in parallel interleave at the points between them. -/

/-- Where one call of `CreateAccount(account)` stands. -/
inductive Call where
  /-- Not started. -/
  | start (account : String)
  /-- Past the existence probe of lines 139-142, which found nothing. -/
  | probed (account : String)
  /-- Past `store.NewAccount` (lines 144-147), holding the new account. -/
  | keyed (account : String) (acc : keystore.Account)
  /-- Past the locked map write (lines 149-151). -/
  | inserted (account : String) (acc : keystore.Account)
  /-- Ended, by returning or by a panic. -/
  | done (ret : Outcome (keeper.Account × error))
  deriving DecidableEq

/-- The next atomic action of a call, on the shared client and file system. -/
def Call.step (codec : json.Codec) (client : Client) (fs : os.FileSystem) :
    Call → Call × Client × os.FileSystem
  | .start account =>
    match client.GetAddress account with
    | ((address, _), client) =>
      if len address > 0 then
        (.done (.returned (keeper.Account.zero, some (account ++ " exists"))), client, fs)
      else (.probed account, client, fs)
  | .probed account =>
    match client.store.NewAccount PASSWORD with
    | (.error err, store) =>
      (.done (.returned (keeper.Account.zero, some err)), { client with store := store }, fs)
    | (.ok acc, store) => (.keyed account acc, { client with store := store }, fs)
  | .keyed account acc =>
    match client.accountAddressMap.set account acc.Address.Hex with
    | none => (.done (.panicked "assignment to entry in nil map"), client, fs)
    | some m => (.inserted account acc, { client with accountAddressMap := m }, fs)
  | .inserted account acc =>
    match Client.persistAccountMap codec client fs with
    | (_, client, fs) =>
      (.done (.returned (⟨account, 0, [acc.Address.Hex]⟩, none)), client, fs)
  | .done ret => (.done ret, client, fs)

/-- One call run alone: its four actions in a row. -/
def Call.runAlone (codec : json.Codec) (client : Client) (fs : os.FileSystem)
    (account : String) : Call × Client × os.FileSystem :=
  match Call.step codec client fs (.start account) with
  | (c1, client1, fs1) =>
    match Call.step codec client1 fs1 c1 with
    | (c2, client2, fs2) =>
      match Call.step codec client2 fs2 c2 with
      | (c3, client3, fs3) => Call.step codec client3 fs3 c3

/-- The shared state and the calls in flight. -/
structure Pool where
  client : Client
  fs : os.FileSystem
  calls : List Call

/-- Let call number `i` take its next action. -/
def Pool.step (codec : json.Codec) (p : Pool) (i : Nat) : Pool :=
  match p.calls.get? i with
  | none => p
  | some c =>
    match Call.step codec p.client p.fs c with
    | (c1, client, fs) => ⟨client, fs, p.calls.set i c1⟩

/-- Run a schedule: the calls take their actions in the order listed. -/
def Pool.run (codec : json.Codec) (p : Pool) (schedule : List Nat) : Pool :=
  schedule.foldl (Pool.step codec) p

/-- The results of the calls that returned without error. -/
def Pool.successes (p : Pool) : List keeper.Account :=
  p.calls.filterMap fun c =>
    match c with
    | .done (.returned (account, none)) => some account
    | _ => none

/-- The calls that returned with an error, and its text. -/
def Pool.failures (p : Pool) : List String :=
  p.calls.filterMap fun c =>
    match c with
    | .done (.returned (_, some err)) => some err
    | _ => none

/-! ### A concrete installation

The scenario of the specification: a binding file, a wallet directory, a
keystore that mints `0xB0B`, then `0xDEF`. -/

namespace sample

/-- The bytes of an empty binding file, `{}` and a newline. -/
def emptyDocument : List UInt8 := utf8.Encode "\x7b\x7d\n"

/-- The bytes of a binding file that holds the JSON value `null`. -/
def nullDocument : List UInt8 := utf8.Encode "null\n"

/-- The bytes of a binding file that binds `carol` to the empty string,
`{"carol":""}` and a newline. -/
def emptyAddressDocument : List UInt8 := utf8.Encode "\x7b\x22carol\x22:\x22\x22\x7d\n"

/-- The bytes `json.Marshal` gives the map that binds `alice` to `0xABC`,
`{"alice":"0xABC"}`. -/
def aliceDocument : List UInt8 := utf8.Encode "\x7b\x22alice\x22:\x220xABC\x22\x7d"

/-- A file system with an empty binding file and a wallet directory. -/
def fs : os.FileSystem :=
  [("accounts.json", ⟨.regular, true, emptyDocument⟩), ("wallet", ⟨.dir, true, []⟩)]

/-- The same, without the wallet directory. -/
def fsNoWallet : os.FileSystem :=
  [("accounts.json", ⟨.regular, true, emptyDocument⟩)]

/-- The same, with a regular file where the wallet directory should be. -/
def fsWalletIsFile : os.FileSystem :=
  [("accounts.json", ⟨.regular, true, emptyDocument⟩), ("wallet", ⟨.regular, true, []⟩)]

/-- A file system whose binding file binds `carol` to the empty string. -/
def fsEmptyAddress : os.FileSystem :=
  [("accounts.json", ⟨.regular, true, emptyAddressDocument⟩), ("wallet", ⟨.dir, true, []⟩)]

/-- A file system whose binding file holds `null`. -/
def fsNull : os.FileSystem :=
  [("accounts.json", ⟨.regular, true, nullDocument⟩), ("wallet", ⟨.dir, true, []⟩)]

/-- A keystore whose first new account is `0xB0B` and every later one `0xDEF`. -/
def store : keystore.KeyStore :=
  ⟨fun _ n => match n with
    | 0 => .ok ⟨⟨"0xB0B"⟩⟩
    | _ => .ok ⟨⟨"0xDEF"⟩⟩, 0⟩

/-- A keystore that refuses every request. -/
def brokenStore : keystore.KeyStore := ⟨fun _ _ => .error "keystore: failed", 0⟩

/-- A world in which dialling and opening the log succeed. -/
def env : Env :=
  ⟨fun _ => store, fun host => .ok ⟨host⟩, fun logDir => .ok (logDir ++ "/eth.log")⟩

/-- A client with the given map in memory. -/
def clientWith (m : GoMap) : Client :=
  { l := ⟨"log/eth.log"⟩
    ethRpcClient := ⟨"http://localhost:8545"⟩
    walletDir := "wallet"
    store := store
    accountPath := "accounts.json"
    accountAddressMap := m }

/-- A client with a made map and no binding. -/
def client : Client := clientWith GoMap.make

/-- A client that holds the binding of `alice` in memory. -/
def clientAlice : Client := clientWith (.made [("alice", "0xABC")])

/-- A client whose map binds `carol` to the empty string. -/
def clientCarol : Client := clientWith (.made [("carol", "")])

/-- A client whose map is nil, as `NewClient` leaves it on a `null` binding file. -/
def clientNil : Client := clientWith .nil

/-- Two calls of `CreateAccount("alice")` in flight on the fresh client. -/
def twoCalls : Pool := ⟨client, fs, [.start "alice", .start "alice"]⟩

end sample

end eth

/-! ## Lemmas on the library models -/

theorem len_eq_zero_iff (s : String) : len s = 0 ↔ s = "" := by
  rcases s with ⟨l⟩
  cases l with
  | nil => simp [len, String.utf8ByteSize, String.utf8ByteSize.go]
  | cons c cs =>
    have hc : 0 < c.utf8Size := Char.utf8Size_pos c
    constructor
    · intro h
      simp only [len, String.utf8ByteSize, String.utf8ByteSize.go] at h
      omega
    · intro h
      exact absurd (congrArg String.data h) (by simp)

theorem len_pos_iff (s : String) : len s > 0 ↔ s ≠ "" := by
  rw [gt_iff_lt, Nat.pos_iff_ne_zero, Ne, len_eq_zero_iff]

theorem Bindings.get?_set_self (m : Bindings) (k v : String) :
    (m.set k v).get? k = some v := by
  induction m with
  | nil => simp [Bindings.set, Bindings.get?]
  | cons e rest ih =>
    rcases e with ⟨k1, v1⟩
    by_cases h : k1 = k
    · simp [Bindings.set, Bindings.get?, h]
    · simp [Bindings.set, Bindings.get?, h, ih]

theorem Bindings.get?_set_of_ne (m : Bindings) (k v j : String) (h : k ≠ j) :
    (m.set k v).get? j = m.get? j := by
  induction m with
  | nil => simp [Bindings.set, Bindings.get?, h]
  | cons e rest ih =>
    rcases e with ⟨k1, v1⟩
    by_cases h1 : k1 = k
    · subst h1
      simp [Bindings.set, Bindings.get?, h]
    · by_cases h2 : k1 = j
      · subst h2
        simp [Bindings.set, Bindings.get?, h1]
      · simp [Bindings.set, Bindings.get?, h1, h2, ih]

/-- A write to a map that is not nil does not panic, and the key then reads as
the value written. -/
theorem GoMap.set_of_ne_nil (m : GoMap) (k v : String) (h : m ≠ GoMap.nil) :
    ∃ m1, m.set k v = some m1 ∧ m1.get? k = some v ∧ m1 ≠ GoMap.nil := by
  cases m with
  | nil => exact absurd rfl h
  | made entries =>
    exact ⟨.made (entries.set k v), rfl, Bindings.get?_set_self entries k v, by simp⟩

/-- A map that binds a key is not nil. -/
theorem GoMap.ne_nil_of_get? (m : GoMap) (k v : String) (h : m.get? k = some v) :
    m ≠ GoMap.nil := by
  intro hm
  subst hm
  simp [GoMap.get?] at h

/-- A descriptor from `os.Open` is read-only. -/
theorem os.Open_flag (fs : os.FileSystem) (name : String) (f : os.File)
    (h : os.Open fs name = .ok f) : f.flag = os.Flag.O_RDONLY := by
  unfold os.Open os.OpenFile at h
  split at h
  · simp at h
  · split_ifs at h
    simp only [Except.ok.injEq] at h
    rw [← h]

/-- Writing to a read-only descriptor fails and leaves the file system as it was. -/
theorem os.File.Write_readonly (fs : os.FileSystem) (f : os.File) (b : List UInt8)
    (h : f.flag = os.Flag.O_RDONLY) :
    os.File.Write fs f b = (.error ("write " ++ f.name ++ ": bad file descriptor"), fs) := by
  simp [os.File.Write, h]

/-- Encoding onto a read-only descriptor fails and leaves the file system as it
was, whatever the codec. -/
theorem json.Encode_readonly (codec : json.Codec) (fs : os.FileSystem) (w : os.File)
    (m : GoMap) (h : w.flag = os.Flag.O_RDONLY) :
    (json.Encode codec fs w m).1 ≠ none ∧ (json.Encode codec fs w m).2 = fs := by
  unfold json.Encode
  cases codec.Marshal m with
  | error err => simp
  | ok b => simp [os.File.Write_readonly fs w _ h]

namespace eth

/-- Method `persistAccountMap` never writes: whatever the codec, the client and
the file system, it returns a non-nil error and both are as before. -/
theorem persistAccountMap_fails (codec : json.Codec) (client : Client) (fs : os.FileSystem) :
    (client.persistAccountMap codec fs).1 ≠ none ∧
      (client.persistAccountMap codec fs).2 = (client, fs) := by
  unfold Client.persistAccountMap
  cases hopen : os.Open fs client.accountPath with
  | error err => simp
  | ok file =>
    have hflag := os.Open_flag fs _ file hopen
    have henc := json.Encode_readonly codec fs file client.accountAddressMap hflag
    simp only
    exact ⟨henc.1, by rw [henc.2]⟩

/-- The probe of `CreateAccount` lets the call through when the account has no
binding, or one to the empty string. -/
theorem GetAddress_of_free (client : Client) (a : String)
    (hfree : ∀ addr, client.accountAddressMap.get? a = some addr → addr = "") :
    ∃ e, client.GetAddress a = (("", e), client) := by
  unfold Client.GetAddress
  cases hget : client.accountAddressMap.get? a with
  | none => exact ⟨_, rfl⟩
  | some addr =>
    have := hfree addr hget
    subst this
    exact ⟨_, rfl⟩

/-- The outcome of `CreateAccount` when the probe finds no non-empty address,
the keystore yields an account and the map write gives `m`: success, the
binding written in memory, the file system untouched. -/
theorem CreateAccount_of_free (codec : json.Codec) (client : Client) (fs : os.FileSystem)
    (a : String) (acc : keystore.Account) (m : GoMap)
    (hfree : ∀ addr, client.accountAddressMap.get? a = some addr → addr = "")
    (hkey : (client.store.NewAccount PASSWORD).1 = .ok acc)
    (hset : client.accountAddressMap.set a acc.Address.Hex = some m) :
    client.CreateAccount codec fs a =
      (.returned (⟨a, 0, [acc.Address.Hex]⟩, none),
        { client with
          store := (client.store.NewAccount PASSWORD).2
          accountAddressMap := m },
        fs) := by
  obtain ⟨e, hga⟩ := GetAddress_of_free client a hfree
  have hlen : ¬ len "" > 0 := by rw [len_pos_iff]; simp
  unfold Client.CreateAccount
  rw [hga]
  simp only [hlen, if_false]
  rcases hna : client.store.NewAccount PASSWORD with ⟨r, store⟩
  rw [hna] at hkey
  simp only at hkey
  subst hkey
  simp only [hset]
  have hp := (persistAccountMap_fails codec
    { client with store := store, accountAddressMap := m } fs).2
  rcases hpm : Client.persistAccountMap codec
    { client with store := store, accountAddressMap := m } fs with ⟨e1, c2, fs2⟩
  rw [hpm] at hp
  simp only [Prod.mk.injEq] at hp
  simp only [hp.1, hp.2]

/-- The outcome of `CreateAccount` on a nil map when the keystore yields an
account: the map write panics, after the key was minted. -/
theorem CreateAccount_of_nil (codec : json.Codec) (client : Client) (fs : os.FileSystem)
    (a : String) (acc : keystore.Account)
    (hnil : client.accountAddressMap = GoMap.nil)
    (hkey : (client.store.NewAccount PASSWORD).1 = .ok acc) :
    client.CreateAccount codec fs a =
      (.panicked "assignment to entry in nil map",
        { client with store := (client.store.NewAccount PASSWORD).2 }, fs) := by
  have hfree : ∀ addr, client.accountAddressMap.get? a = some addr → addr = "" := by
    intro addr h
    rw [hnil] at h
    simp [GoMap.get?] at h
  obtain ⟨e, hga⟩ := GetAddress_of_free client a hfree
  have hlen : ¬ len "" > 0 := by rw [len_pos_iff]; simp
  unfold Client.CreateAccount
  rw [hga]
  simp only [hlen, if_false]
  rcases hna : client.store.NewAccount PASSWORD with ⟨r, store⟩
  rw [hna] at hkey
  simp only at hkey
  subst hkey
  simp only [hnil, GoMap.set]

/-- The outcome of `CreateAccount` when the probe finds no non-empty address
and the keystore fails: the keystore's error is returned. -/
theorem CreateAccount_of_keystore_error (codec : json.Codec) (client : Client)
    (fs : os.FileSystem) (a err : String)
    (hfree : ∀ addr, client.accountAddressMap.get? a = some addr → addr = "")
    (hkey : (client.store.NewAccount PASSWORD).1 = .error err) :
    client.CreateAccount codec fs a =
      (.returned (keeper.Account.zero, some err),
        { client with store := (client.store.NewAccount PASSWORD).2 }, fs) := by
  obtain ⟨e, hga⟩ := GetAddress_of_free client a hfree
  have hlen : ¬ len "" > 0 := by rw [len_pos_iff]; simp
  unfold Client.CreateAccount
  rw [hga]
  simp only [hlen, if_false]
  rcases hna : client.store.NewAccount PASSWORD with ⟨r, store⟩
  rw [hna] at hkey
  simp only at hkey
  subst hkey
  simp only

/-- The outcome of `CreateAccount` when the account is bound to a non-empty
address: the `exists` error, and nothing changes. -/
theorem CreateAccount_of_bound (codec : json.Codec) (client : Client) (fs : os.FileSystem)
    (a addr : String) (hbound : client.accountAddressMap.get? a = some addr)
    (hne : addr ≠ "") :
    client.CreateAccount codec fs a =
      (.returned (keeper.Account.zero, some (a ++ " exists")), client, fs) := by
  have hpos : len addr > 0 := (len_pos_iff addr).2 hne
  unfold Client.CreateAccount Client.GetAddress
  rw [hbound]
  simp only [hpos, if_true]

/-- A call of `CreateAccount` run alone through its four actions is the method
`CreateAccount`: the step model refines the sequential one. -/
theorem runAlone_eq_CreateAccount (codec : json.Codec) (client : Client) (fs : os.FileSystem)
    (a : String) :
    Call.runAlone codec client fs a =
      (.done (client.CreateAccount codec fs a).1, (client.CreateAccount codec fs a).2) := by
  unfold Call.runAlone Client.CreateAccount
  simp only [Call.step]
  rcases client.GetAddress a with ⟨⟨address, e⟩, client1⟩
  simp only
  by_cases hlen : len address > 0
  · simp only [hlen, if_true, Call.step]
  · simp only [hlen, if_false, Call.step]
    rcases client1.store.NewAccount PASSWORD with ⟨r, store⟩
    cases r with
    | error err => simp only [Call.step]
    | ok acc =>
      simp only [Call.step]
      cases client1.accountAddressMap.set a acc.Address.Hex with
      | none => simp only [Call.step]
      | some m => simp only [Call.step]

end eth

namespace eth

/-! ## The claims -/

/-- C1 as stated fails: a binding file that holds `null` loads without error
and leaves `accountAddressMap` nil; `dave` then has no binding, the keystore
yields an account, and `CreateAccount("dave")` panics at the map write instead
of returning. -/
theorem CreateAccount_nil_map_counterexample :
    (NewClient json.std sample.env sample.fsNull "http://localhost:8545" "wallet"
        "accounts.json" "log").1.map (fun c => c.accountAddressMap) = some GoMap.nil ∧
      (NewClient json.std sample.env sample.fsNull "http://localhost:8545" "wallet"
        "accounts.json" "log").2 = none ∧
      sample.clientNil.accountAddressMap.get? "dave" = none ∧
      (sample.clientNil.store.NewAccount PASSWORD).1 = .ok ⟨⟨"0xB0B"⟩⟩ ∧
      (sample.clientNil.CreateAccount json.std sample.fsNull "dave").1 =
        .panicked "assignment to entry in nil map" := by
  decide

/-- C1, amended: on a client whose `accountAddressMap` is not nil, for an
account name with no binding in it, when `store.NewAccount` yields an account,
`CreateAccount` returns no error and the record with the name, balance 0 and
the one new address, and `GetAddress` on the resulting client returns that
address with no error. -/
theorem CreateAccount_fresh_account (codec : json.Codec) (client : Client)
    (fs : os.FileSystem) (a : String) (acc : keystore.Account)
    (hmade : client.accountAddressMap ≠ GoMap.nil)
    (hfree : client.accountAddressMap.get? a = none)
    (hkey : (client.store.NewAccount PASSWORD).1 = .ok acc) :
    (client.CreateAccount codec fs a).1 = .returned (⟨a, 0, [acc.Address.Hex]⟩, none) ∧
      ((client.CreateAccount codec fs a).2.1.GetAddress a).1 = (acc.Address.Hex, none) := by
  obtain ⟨m, hset, hget, _⟩ := GoMap.set_of_ne_nil client.accountAddressMap a acc.Address.Hex hmade
  have h := CreateAccount_of_free codec client fs a acc m
    (fun addr hb => by rw [hfree] at hb; cases hb) hkey hset
  rw [h]
  refine ⟨rfl, ?_⟩
  simp only [Client.GetAddress, hget]

/-- C1 amended, at the sample client: the map holds `alice`, `bob` is unbound,
the keystore mints `0xB0B`. -/
theorem CreateAccount_fresh_account_witness :
    sample.clientAlice.accountAddressMap ≠ GoMap.nil ∧
      sample.clientAlice.accountAddressMap.get? "bob" = none ∧
      (sample.clientAlice.CreateAccount json.std sample.fs "bob").1 =
        .returned (⟨"bob", 0, ["0xB0B"]⟩, none) ∧
      ((sample.clientAlice.CreateAccount json.std sample.fs "bob").2.1.GetAddress "bob").1 =
        ("0xB0B", none) :=
  ⟨by decide, by decide,
    CreateAccount_fresh_account json.std sample.clientAlice sample.fs "bob" ⟨⟨"0xB0B"⟩⟩
      (by decide) (by decide) (by decide)⟩

/-- C2 as stated fails: a binding file that binds `carol` to the empty string
loads, the map then has a binding for `carol`, and `CreateAccount("carol")`
returns no error and rewrites the binding. -/
theorem CreateAccount_empty_binding_counterexample :
    (NewClient json.std sample.env sample.fsEmptyAddress "http://localhost:8545" "wallet"
        "accounts.json" "log").1.map (fun c => c.accountAddressMap)
        = some (.made [("carol", "")]) ∧
      sample.clientCarol.accountAddressMap.get? "carol" = some "" ∧
      (sample.clientCarol.CreateAccount json.std sample.fsEmptyAddress "carol").1 =
        .returned (⟨"carol", 0, ["0xB0B"]⟩, none) ∧
      (sample.clientCarol.CreateAccount json.std sample.fsEmptyAddress "carol").2.1.accountAddressMap
        ≠ sample.clientCarol.accountAddressMap := by
  decide

/-- C2, amended: when `accountAddressMap` binds the account to a non-empty
address, `CreateAccount` returns the zero record with the error `<account> exists`
and changes nothing: the map, the keystore and the file system are as before. -/
theorem CreateAccount_existing_account (codec : json.Codec) (client : Client)
    (fs : os.FileSystem) (a addr : String)
    (hbound : client.accountAddressMap.get? a = some addr) (hne : addr ≠ "") :
    (client.CreateAccount codec fs a).1 =
        .returned (keeper.Account.zero, some (a ++ " exists")) ∧
      (client.CreateAccount codec fs a).2.1.accountAddressMap = client.accountAddressMap ∧
      (client.CreateAccount codec fs a).2 = (client, fs) := by
  rw [CreateAccount_of_bound codec client fs a addr hbound hne]
  exact ⟨rfl, rfl, rfl⟩

/-- C2 amended, at the sample client that binds `alice` to `0xABC`. -/
theorem CreateAccount_existing_account_witness :
    sample.clientAlice.accountAddressMap.get? "alice" = some "0xABC" ∧
      (sample.clientAlice.CreateAccount json.std sample.fs "alice").1 =
        .returned (keeper.Account.zero, some "alice exists") ∧
      (sample.clientAlice.CreateAccount json.std sample.fs "alice").2.1.accountAddressMap =
        .made [("alice", "0xABC")] :=
  ⟨by decide,
    (CreateAccount_existing_account json.std sample.clientAlice sample.fs "alice" "0xABC"
      (by decide) (by decide)).1,
    (CreateAccount_existing_account json.std sample.clientAlice sample.fs "alice" "0xABC"
      (by decide) (by decide)).2.1⟩

/-- C3: when the account is unbound and a first `CreateAccount` succeeds with
the non-empty address `addr`, a second `CreateAccount` of the same name, on the
resulting client with any keystore `ks` and any file system `fs2` in place,
returns the error `<account> exists`, and `GetAddress` still returns `addr`. -/
theorem CreateAccount_twice (codec : json.Codec) (client : Client) (fs fs2 : os.FileSystem)
    (ks : keystore.KeyStore) (a addr : String) (record : keeper.Account)
    (hfree : client.accountAddressMap.get? a = none)
    (hok : (client.CreateAccount codec fs a).1 = .returned (record, none))
    (haddr : record.Addresses = [addr])
    (hne : addr ≠ "") :
    (Client.CreateAccount codec
        { (client.CreateAccount codec fs a).2.1 with store := ks } fs2 a).1
        = .returned (keeper.Account.zero, some (a ++ " exists")) ∧
      (Client.GetAddress
        (Client.CreateAccount codec
          { (client.CreateAccount codec fs a).2.1 with store := ks } fs2 a).2.1 a).1
        = (addr, none) := by
  have hfree1 : ∀ v, client.accountAddressMap.get? a = some v → v = "" :=
    fun v hb => by rw [hfree] at hb; cases hb
  cases hkey : (client.store.NewAccount PASSWORD).1 with
  | error err =>
    rw [CreateAccount_of_keystore_error codec client fs a err hfree1 hkey] at hok
    simp at hok
  | ok acc =>
    by_cases hnil : client.accountAddressMap = GoMap.nil
    · rw [CreateAccount_of_nil codec client fs a acc hnil hkey] at hok
      simp at hok
    · obtain ⟨m, hset, hget, _⟩ :=
        GoMap.set_of_ne_nil client.accountAddressMap a acc.Address.Hex hnil
      have h1 := CreateAccount_of_free codec client fs a acc m hfree1 hkey hset
      rw [h1] at hok ⊢
      simp only [Outcome.returned.injEq, Prod.mk.injEq, and_true] at hok
      rw [← hok] at haddr
      simp only [List.cons.injEq, and_true] at haddr
      have hbound : m.get? a = some addr := by rw [hget, haddr]
      have h2 := CreateAccount_of_bound codec
        { client with store := ks, accountAddressMap := m } fs2 a addr hbound hne
      simp only at h2 ⊢
      rw [h2]
      refine ⟨rfl, ?_⟩
      simp only [Client.GetAddress, hbound]

/-- C3 at the sample client: `alice` is created with `0xB0B`; the second call
runs against a keystore that refuses every request. -/
theorem CreateAccount_twice_witness :
    sample.client.accountAddressMap.get? "alice" = none ∧
      (sample.client.CreateAccount json.std sample.fs "alice").1 =
        .returned (⟨"alice", 0, ["0xB0B"]⟩, none) ∧
      (Client.CreateAccount json.std
        { (sample.client.CreateAccount json.std sample.fs "alice").2.1 with
          store := sample.brokenStore } sample.fs "alice").1
        = .returned (keeper.Account.zero, some ("alice" ++ " exists")) ∧
      (Client.GetAddress
        (Client.CreateAccount json.std
          { (sample.client.CreateAccount json.std sample.fs "alice").2.1 with
            store := sample.brokenStore } sample.fs "alice").2.1 "alice").1 = ("0xB0B", none) :=
  ⟨by decide, by decide,
    CreateAccount_twice json.std sample.client sample.fs sample.fs sample.brokenStore
      "alice" "0xB0B" ⟨"alice", 0, ["0xB0B"]⟩ (by decide) (by decide) (by decide) (by decide)⟩

/-- Whenever `CreateAccount` gets as far as persisting (the map is not nil, the
account is unbound and the keystore yields an account), the `persistAccountMap`
call it makes returns an error, and `CreateAccount` returns `nil` all the same. -/
theorem CreateAccount_ignores_persist_error (codec : json.Codec) (client : Client)
    (fs : os.FileSystem) (a : String) (acc : keystore.Account) (m : GoMap)
    (hfree : client.accountAddressMap.get? a = none)
    (hkey : (client.store.NewAccount PASSWORD).1 = .ok acc)
    (hset : client.accountAddressMap.set a acc.Address.Hex = some m) :
    (Client.persistAccountMap codec
        { client with
          store := (client.store.NewAccount PASSWORD).2
          accountAddressMap := m } fs).1 ≠ none ∧
      (client.CreateAccount codec fs a).1 =
        .returned (⟨a, 0, [acc.Address.Hex]⟩, none) := by
  refine ⟨(persistAccountMap_fails codec _ fs).1, ?_⟩
  rw [CreateAccount_of_free codec client fs a acc m
    (fun addr hb => by rw [hfree] at hb; cases hb) hkey hset]

/-- C4, on the code: at the sample client, the `persistAccountMap` call that
`CreateAccount("alice")` makes after the insert fails with a write error on the
read-only descriptor, and `CreateAccount` returns the record and a nil error. -/
theorem CreateAccount_swallows_persist_error :
    (Client.persistAccountMap json.std
        (sample.client.CreateAccount json.std sample.fs "alice").2.1 sample.fs).1
        = some "write accounts.json: bad file descriptor" ∧
      (sample.client.CreateAccount json.std sample.fs "alice").2.1.accountAddressMap
        = .made [("alice", "0xB0B")] ∧
      (sample.client.CreateAccount json.std sample.fs "alice").1
        = .returned (⟨"alice", 0, ["0xB0B"]⟩, none) := by
  decide

/-- C5, on the code: the client holds the binding of `alice`, the binding file
holds the empty document. `persistAccountMap` fails on the read-only descriptor
and leaves the file as it was, so loading the file as `NewClient` does gives the
empty map, not the map that was persisted; the codec alone does round-trip it. -/
theorem persistAccountMap_then_load_loses_map :
    sample.clientAlice.accountAddressMap = .made [("alice", "0xABC")] ∧
      (sample.clientAlice.persistAccountMap json.std sample.fs).1
        = some "write accounts.json: bad file descriptor" ∧
      (sample.clientAlice.persistAccountMap json.std sample.fs).2.2 = sample.fs ∧
      (NewClient json.std sample.env
          (sample.clientAlice.persistAccountMap json.std sample.fs).2.2
          "http://localhost:8545" "wallet" "accounts.json" "log").1.map
          (fun c => c.accountAddressMap) = some (.made []) ∧
      json.std.Marshal (.made [("alice", "0xABC")]) = .ok sample.aliceDocument ∧
      json.std.Unmarshal (sample.aliceDocument ++ [10]) = .ok (some [("alice", "0xABC")]) := by
  decide

/-- C6: `GetAddress` returns `(addr, nil)` exactly when the map binds the
account to `addr`; when the account is unbound it returns the empty string and
the error `<account> no exists`, whose text contains the account name; the client,
and so its map, is unchanged. -/
theorem GetAddress_lookup (client : Client) (a : String) :
    (∀ addr, (client.GetAddress a).1 = (addr, none) ↔
        client.accountAddressMap.get? a = some addr) ∧
      (client.accountAddressMap.get? a = none →
        (client.GetAddress a).1 = ("", some (a ++ " no exists")) ∧
          a.data <:+: (a ++ " no exists").data) ∧
      (client.GetAddress a).2.accountAddressMap = client.accountAddressMap ∧
      (client.GetAddress a).2 = client := by
  unfold Client.GetAddress
  cases hget : client.accountAddressMap.get? a with
  | none =>
    refine ⟨fun addr => by simp, fun _ => ⟨rfl, ?_⟩, rfl, rfl⟩
    rw [String.data_append]
    exact (List.prefix_append _ _).isInfix
  | some v =>
    refine ⟨fun addr => by simp, ?_, rfl, rfl⟩
    intro h
    cases h

/-- C7: when `GetAddress` succeeds with `addr`, `GetAddressesByAccount` succeeds
with `[addr]`; `GetAddressesByAccount` returns an error exactly when `GetAddress`
does, and then its sequence is empty. -/
theorem GetAddressesByAccount_wraps_GetAddress (client : Client) (a : String) :
    (∀ addr, (client.GetAddress a).1 = (addr, none) →
        (client.GetAddressesByAccount a).1 = ([addr], none)) ∧
      ((client.GetAddressesByAccount a).1.2 ≠ none ↔ (client.GetAddress a).1.2 ≠ none) ∧
      ((client.GetAddressesByAccount a).1.2 ≠ none →
        (client.GetAddressesByAccount a).1.1 = []) := by
  unfold Client.GetAddressesByAccount Client.GetAddress
  cases hget : client.accountAddressMap.get? a with
  | none => simp
  | some v => simp

/-- C8: `GetNewAddress` returns the empty string and a non-nil error,
`ListUnspentMin` the empty list and a non-nil error, for every client and
argument, and both leave the client, and so its map, unchanged. -/
theorem unsupported_operations_fail (client : Client) (account : String) (minConf : Int) :
    (client.GetNewAddress account).1.1 = "" ∧
      (client.GetNewAddress account).1.2 ≠ none ∧
      (client.GetNewAddress account).2.accountAddressMap = client.accountAddressMap ∧
      (client.ListUnspentMin minConf).1.1 = [] ∧
      (client.ListUnspentMin minConf).1.2 ≠ none ∧
      (client.ListUnspentMin minConf).2.accountAddressMap = client.accountAddressMap := by
  simp [Client.GetNewAddress, Client.ListUnspentMin]

/-- When the binding file loads and `os.Stat` fails on the wallet path,
`NewClient` returns no client and a nil error (line 76). -/
theorem NewClient_walletDir_missing (codec : json.Codec) (env : Env) (fs : os.FileSystem)
    (host walletDir accountPath logDir : String) (stat : os.FileInfo) (file : os.File)
    (m : GoMap) (err : String)
    (hstat : os.Stat fs accountPath = .ok stat) (hreg : stat.IsRegular = true)
    (hopen : os.Open fs accountPath = .ok file)
    (hload : json.Decode codec fs file GoMap.make = (none, m))
    (hwallet : os.Stat fs walletDir = .error err) :
    NewClient codec env fs host walletDir accountPath logDir = (none, none) := by
  unfold NewClient
  simp only [hstat, hreg, hopen, hload, hwallet, Bool.not_true, Bool.false_eq_true, if_false]

/-- When the binding file loads and the wallet path is not a directory,
`NewClient` returns no client and the error `<walletDir> is not a directory`. -/
theorem NewClient_walletDir_not_directory (codec : json.Codec) (env : Env)
    (fs : os.FileSystem) (host walletDir accountPath logDir : String)
    (stat wstat : os.FileInfo) (file : os.File) (m : GoMap)
    (hstat : os.Stat fs accountPath = .ok stat) (hreg : stat.IsRegular = true)
    (hopen : os.Open fs accountPath = .ok file)
    (hload : json.Decode codec fs file GoMap.make = (none, m))
    (hwallet : os.Stat fs walletDir = .ok wstat) (hdir : wstat.IsDir = false) :
    NewClient codec env fs host walletDir accountPath logDir =
      (none, some (walletDir ++ " is not a directory")) := by
  unfold NewClient
  simp only [hstat, hreg, hopen, hload, hwallet, hdir, Bool.not_true, Bool.not_false,
    Bool.false_eq_true, if_false, if_true]

/-- C9, on the code: the binding file loads, nothing is at the wallet path, and
`NewClient` returns no client and a nil error. With a regular file at the wallet
path it does return an error. -/
theorem NewClient_missing_walletDir_returns_nil_error :
    json.Decode json.std sample.fsNoWallet ⟨"accounts.json", os.Flag.O_RDONLY⟩ GoMap.make
        = (none, .made []) ∧
      os.Stat sample.fsNoWallet "wallet" = .error "stat wallet: no such file or directory" ∧
      (NewClient json.std sample.env sample.fsNoWallet "http://localhost:8545" "wallet"
        "accounts.json" "log").1.isNone = true ∧
      (NewClient json.std sample.env sample.fsNoWallet "http://localhost:8545" "wallet"
        "accounts.json" "log").2 = none ∧
      (NewClient json.std sample.env sample.fsWalletIsFile "http://localhost:8545" "wallet"
        "accounts.json" "log").2 = some "wallet is not a directory" := by
  decide

/-- C10, on the code: two calls of `CreateAccount("alice")` on the fresh client.
When both probe the map before either writes it, both return a record and a nil
error, with different addresses. When they run one after the other, one succeeds
and the other gets `alice exists`. In both runs the binding file is still the
empty document, with no entry for `alice`. -/
theorem CreateAccount_concurrent_same_name :
    (Pool.run json.std sample.twoCalls [0, 1, 0, 1, 0, 1, 0, 1]).successes =
        [⟨"alice", 0, ["0xB0B"]⟩, ⟨"alice", 0, ["0xDEF"]⟩] ∧
      (Pool.run json.std sample.twoCalls [0, 1, 0, 1, 0, 1, 0, 1]).failures = [] ∧
      (Pool.run json.std sample.twoCalls [0, 1, 0, 1, 0, 1, 0, 1]).fs = sample.fs ∧
      (Pool.run json.std sample.twoCalls [0, 0, 0, 0, 1, 1, 1, 1]).successes =
        [⟨"alice", 0, ["0xB0B"]⟩] ∧
      (Pool.run json.std sample.twoCalls [0, 0, 0, 0, 1, 1, 1, 1]).failures =
        ["alice exists"] ∧
      (Pool.run json.std sample.twoCalls [0, 0, 0, 0, 1, 1, 1, 1]).fs = sample.fs ∧
      (sample.fs.find "accounts.json").map (fun n => json.std.Unmarshal n.content) =
        some (.ok (some [])) := by
  decide

end eth
